import Mathlib

/-!
# A shallow embedding of tetra3d's navigation grid (`grid.go`)

This file models the `GridPoint` / `Grid` / `GridPath` subsystem of the
tetra3d scene library and proves properties of it.

Modelling conventions:

* Go pointers to `GridPoint`s and `Grid`s are node / grid identifiers (`Nat`).
  Pointer equality (`p == other`) is identifier equality.
* The mutable heap is a `GridWorld` record: each node's `Connections` slice
  (as a logical list of identifiers), its parent grid, its world position,
  and its `prevLink` scratch field (as a mutation journal, newest first).
* `float64` coordinates are rational numbers.  All positions used in the
  development are small exact values, where float and rational arithmetic
  agree; `math.MaxFloat64` is embedded as its exact rational value.
* Go slice mutation during `range` loops is modelled exactly where the code
  does it (`Disconnect`, and the connection-transfer loop in `Combine`): the
  captured backing array is simulated cell by cell, including the `nil`
  write, the left shift performed by `append(s[:i], s[i+1:]...)`, and the
  stale cells beyond the shrunk logical length that a captured `range`
  header can still read.
* Go runtime panics (index out of range on an empty or shrunk slice,
  `rand.Intn(0)`) are explicit failure constructors, distinct from graceful
  returns such as `PathTo`'s `nil` result.
* `Node` (transform hierarchy) and `Vector` are defined in files of the
  repository outside the modelled core; they are modelled from the spec at
  their interface boundary, as marked on each definition.
-/

namespace Tetra3d

/-- Modelled from the spec: the external math library's 3-vector
(`Vector` of tetra3d), restricted to the X/Y/Z components the grid code
uses.  Components are rationals standing for `float64` values. -/
structure Vec where
  x : ℚ
  y : ℚ
  z : ℚ
deriving DecidableEq, Repr

namespace Vec

/-- Modelled from the spec: component-wise vector subtraction. -/
def sub (a b : Vec) : Vec := ⟨a.x - b.x, a.y - b.y, a.z - b.z⟩

/-- Modelled from the spec: component-wise vector addition. -/
def add (a b : Vec) : Vec := ⟨a.x + b.x, a.y + b.y, a.z + b.z⟩

/-- Modelled from the spec: dot product. -/
def dot (a b : Vec) : ℚ := a.x * b.x + a.y * b.y + a.z * b.z

/-- Modelled from the spec: squared magnitude (`MagnitudeSquared`). -/
def magnitudeSquared (a : Vec) : ℚ := a.dot a

/-- Modelled from the spec: squared distance (`DistanceSquared`). -/
def distanceSquared (a b : Vec) : ℚ := (a.sub b).magnitudeSquared

/-- Modelled from the spec: scalar division (`Divide`). -/
def divide (a : Vec) (s : ℚ) : Vec := ⟨a.x / s, a.y / s, a.z / s⟩

/-- The fixed epsilon of the math library's approximate equality
(`0.0001`), given in lowest terms so that its numerator and denominator
are available by projection. -/
def epsilon : ℚ := ⟨1, 10000, by norm_num, Nat.coprime_one_left _⟩

/-- Go's `math.Abs`. -/
def ratAbs (q : ℚ) : ℚ := if q < 0 then -q else q

/-- The comparison `|a - b| ≤ eps`, computed by cross-multiplication on the rational
representations (Mathlib's field operations on `ℚ` normalise through
`Nat.gcd` and do not evaluate by kernel reduction; this form does).
`closeAbs_iff` below proves it is exactly that comparison. -/
def closeAbs (a b eps : ℚ) : Bool :=
  ((a.num * b.den - b.num * a.den).natAbs : ℤ) * eps.den ≤ eps.num * (a.den * b.den)

/-- Modelled from the spec: approximate vector equality with the shared
fixed epsilon (`Vector.Equals`): no component differs by more than
`epsilon`. -/
def equals (a b : Vec) : Bool :=
  closeAbs a.x b.x epsilon && closeAbs a.y b.y epsilon && closeAbs a.z b.z epsilon

end Vec

/-- The mutable state of the modelled scene: connection lists, parenting,
world positions and the `prevLink` scratch fields of all grid points.

`conns i` is the logical content of `GridPoint i`'s `Connections` slice.
`parent i` is the grid that `GridPoint i` is directly parented to (`none`
for an orphan).  `children g` is grid `g`'s ordered children list; every
child is a `GridPoint` here, so it is also what `Grid.Points` returns.
`pos i` is the node's world position; grids carry identity transforms, so
attaching (which the code pairs with `SetWorldPositionVec`) and detaching
both preserve it, matching the spec's transform-provider contract.
`prevJournal` is the history of writes to the `prevLink` fields, newest
first; an absent entry is the Go zero value `nil`. -/
@[ext]
structure GridWorld where
  conns : Nat → List Nat
  parent : Nat → Option Nat
  children : Nat → List Nat
  pos : Nat → Vec
  prevJournal : List (Nat × Option Nat)

/-- Read a `prevLink` field from the journal. -/
def prevAt (j : List (Nat × Option Nat)) (n : Nat) : Option Nat :=
  match j.find? (fun e => e.1 = n) with
  | some e => e.2
  | none => none

/-- Replace node `p`'s connection list. -/
def setConns (w : GridWorld) (p : Nat) (l : List Nat) : GridWorld :=
  { w with conns := fun i => if i = p then l else w.conns i }

/-- Method `GridPoint.IsConnected`: whether `other` appears in this point's
`Connections` list (pointer comparison becomes identifier equality). -/
def isConnected (w : GridWorld) (point other : Nat) : Bool :=
  (w.conns point).contains other

/-- Method `GridPoint.IsOnSameGrid`: direct parent identity comparison. -/
def isOnSameGrid (w : GridWorld) (point other : Nat) : Bool :=
  w.parent point = w.parent other

/-- Method `GridPoint.Connect`: no-op on self; append each side to the other's
`Connections` unless already present. -/
def connect (w : GridWorld) (point other : Nat) : GridWorld :=
  if point = other then w
  else
    let w1 := if isConnected w point other then w
      else setConns w point (w.conns point ++ [other])
    if isConnected w1 other point then w1
    else setConns w1 other (w1.conns other ++ [point])

/-! ## Go slice removal during `range`

`Disconnect` (and the connection-transfer loop of `Combine`) iterate over a
`Connections` slice with `range` while removing entries from the very same
backing array via `s[i] = nil; s = append(s[:i], s[i+1:]...)`.  The `range`
header captures the array pointer and the original length, so later
iterations read cells the removals have already shifted, including cells
beyond the shrunk logical length.  The simulation below keeps the physical
array (`List (Option Nat)`, `none` being the written `nil`) and the logical
length explicitly. -/

/-- The physical effect on the backing array of `s[i] = nil` followed by
`s = append(s[:i], s[i+1:]...)` on a logical slice of length `len`
(requires `i < len`): cells before `i` stay, cells `i ≤ j ≤ len-2` receive
the old cell `j+1`, the written `nil` survives only when `i = len-1`, and
cells at or beyond `len` keep their stale contents. -/
def goRemoveShift (arr : List (Option Nat)) (len i : Nat) : List (Option Nat) :=
  (List.range arr.length).map fun j =>
    if j < i then arr.getD j none
    else if j + 2 ≤ len then arr.getD (j + 1) none
    else if j = i then none
    else arr.getD j none

/-- One `for i, c := range s { if c == other { remove at i } }` pass.
`steps` counts the remaining iterations of the captured range header
(initially the captured length), `i` is the current index, `arr`/`len` the
current physical array and logical length.  Returns `none` when Go would
panic: the write `s[i] = nil` with `i` at or beyond the current logical
length is an index-out-of-range fault (reachable only when a stale cell
beyond the logical length still compares equal to the target). -/
def removePass (target : Nat) :
    Nat → Nat → List (Option Nat) → Nat → Option (List (Option Nat) × Nat)
  | 0, _, arr, len => some (arr, len)
  | steps + 1, i, arr, len =>
    if arr.getD i none = some target then
      if i < len then
        removePass target steps (i + 1) (goRemoveShift arr len i) (len - 1)
      else
        none
    else
      removePass target steps (i + 1) arr len

/-- Read the logical slice back out of the physical array. -/
def physToLog (arr : List (Option Nat)) (len : Nat) : List Nat :=
  (arr.take len).filterMap id

/-- Run a removal pass over a freshly captured slice (physical array =
logical list at capture time), returning the resulting logical list. -/
def removeAllGo (l : List Nat) (target : Nat) : Option (List Nat) :=
  (removePass target l.length 0 (l.map some) l.length).map
    fun r => physToLog r.1 r.2

/-- Method `GridPoint.Disconnect`: no-op on self; otherwise one removal pass over
each side's `Connections`.  `none` is a Go index-out-of-range panic inside
a pass (impossible for duplicate-free lists, which `Connect` maintains). -/
def disconnect (w : GridWorld) (point other : Nat) : Option GridWorld :=
  if point = other then some w
  else
    match removeAllGo (w.conns point) other with
    | none => none
    | some lp =>
      let w1 := setConns w point lp
      match removeAllGo (w1.conns other) point with
      | none => none
      | some lq => some (setConns w1 other lq)

/-! ## `GridPoint.PathTo`

The search loop is
```
for {
  if next == point { break }
  next = toCheck[0]; toCheck = toCheck[1:]; checked[next] = true
  for _, c := range next.Connections {
    if _, exists := checked[c]; !exists { c.prevLink = next; toCheck = append(toCheck, c) }
  }
}
```
seeded with `toCheck = [other]` after clearing `other.prevLink` and
`point.prevLink`.  `next` starts as the zero value `nil`.  One loop
iteration is `bfsStep`; `toCheck[0]` on an empty queue is an
index-out-of-range panic. -/

/-- Outcome of one iteration of the `PathTo` search loop. -/
inductive StepOut where
  | broke (prev : List (Nat × Option Nat))
  | panicEmptyQueue
  | stepped (next : Option Nat) (toCheck checked : List Nat)
      (prev : List (Nat × Option Nat))
deriving DecidableEq, Repr

/-- The body of the inner `for _, c := range next.Connections` loop: a
neighbour already in the `checked` map is skipped; otherwise its
`prevLink` is set to the dequeued node `n` and it is appended to the
frontier. -/
def expandStep (n : Nat) (checked : List Nat)
    (st : List Nat × List (Nat × Option Nat)) (c : Nat) :
    List Nat × List (Nat × Option Nat) :=
  if checked.contains c then st
  else (st.1 ++ [c], (c, some n) :: st.2)

/-- One iteration of the search loop: break if the node assigned to `next`
by the previous iteration is the source; otherwise dequeue the queue head
(panicking if empty), mark it checked, and expand its connections in order,
assigning `prevLink` and enqueueing every not-yet-checked neighbour. -/
def bfsStep (w : GridWorld) (point : Nat) (next : Option Nat)
    (toCheck checked : List Nat) (prev : List (Nat × Option Nat)) : StepOut :=
  if next = some point then .broke prev
  else
    match toCheck with
    | [] => .panicEmptyQueue
    | n :: rest =>
      let checked' := n :: checked
      let st := (w.conns n).foldl (expandStep n checked') (rest, prev)
      .stepped (some n) st.1 checked' st.2

/-- Outcome of the whole search loop. -/
inductive BfsOut where
  | broke (prev : List (Nat × Option Nat))
  | panicEmptyQueue
  | outOfFuel
deriving DecidableEq, Repr

/-- The search loop, iterating `bfsStep`.  `fuel` bounds the number of
iterations; it is a model artifact only (the Go loop is unbounded). -/
def bfsLoop (w : GridWorld) (point : Nat) :
    Nat → Option Nat → List Nat → List Nat → List (Nat × Option Nat) → BfsOut
  | 0, _, _, _, _ => .outOfFuel
  | fuel + 1, next, toCheck, checked, prev =>
    match bfsStep w point next toCheck checked prev with
    | .broke p => .broke p
    | .panicEmptyQueue => .panicEmptyQueue
    | .stepped nx tc chk pv => bfsLoop w point fuel nx tc chk pv

/-- Path reconstruction: starting at the source, append the current node's
world position and follow `prevLink` until a node with no `prevLink` is
reached (that node's position is not appended here; the caller appends the
destination's position afterwards). -/
def walkPrev (w : GridWorld) (prev : List (Nat × Option Nat)) :
    Nat → Nat → Option (List Vec)
  | _, 0 => none
  | n, fuel + 1 =>
    match prevAt prev n with
    | none => some []
    | some m => (walkPrev w prev m fuel).map fun l => w.pos n :: l

/-- Result of `GridPoint.PathTo`.  `mismatch` is the `nil` return for
points not on the same grid; `panicEmptyQueue` is the runtime fault of
`toCheck[0]` on an empty queue; `outOfFuel` is a model artifact. -/
inductive PathToOut where
  | mismatch
  | path (points : List Vec)
  | panicEmptyQueue
  | outOfFuel
deriving DecidableEq, Repr

/-- Method `GridPoint.PathTo`: `nil` unless both points share a direct parent; a
single-position path when source and destination are the same point;
otherwise the search seeded at the destination followed by reconstruction
from the source, with the destination's position appended last. -/
def pathTo (w : GridWorld) (point other : Nat) (fuel : Nat) : PathToOut :=
  if ¬ isOnSameGrid w point other then .mismatch
  else if point = other then .path [w.pos point]
  else
    let prev0 : List (Nat × Option Nat) := (point, none) :: (other, none) :: w.prevJournal
    match bfsLoop w point fuel none [other] [] prev0 with
    | .panicEmptyQueue => .panicEmptyQueue
    | .outOfFuel => .outOfFuel
    | .broke prev =>
      match walkPrev w prev point fuel with
      | none => .outOfFuel
      | some pts => .path (pts ++ [w.pos other])

/-! ## Grid queries -/

/-- A Go runtime panic raised by a grid query. -/
inductive GoPanic where
  | indexOutOfRange
  | intnNonPositive
deriving DecidableEq, Repr

/-- Method `Grid.Points`: the grid's children that are `GridPoint`s; every child
in this model is one, so it is the ordered children list. -/
def points (w : GridWorld) (g : Nat) : List Nat := w.children g

/-- Method `Grid.NearestGridPoint`: Go sorts the member slice by squared distance
with a strict-`<` comparator and returns element `0` — an index-out-of-range
panic when the grid has no points.  Which of several equidistant points
ends up first is unspecified (`sort.Slice` is unstable); the model selects
the earliest minimum in member order, which agrees with the code whenever
the nearest point is strictly nearest. -/
def nearestGridPoint (w : GridWorld) (g : Nat) (position : Vec) : Except GoPanic Nat :=
  match points w g with
  | [] => .error .indexOutOfRange
  | p :: rest =>
    .ok (rest.foldl (fun best c =>
      if ((w.pos c).sub position).magnitudeSquared
          < ((w.pos best).sub position).magnitudeSquared
      then c else best) p)

/-- Method `Grid.FurthestGridPoint`: the same sort, returning the last element —
an index-out-of-range panic (`points[-1]`) when the grid has no points.
Tie behaviour is unspecified exactly as for `nearestGridPoint`. -/
def furthestGridPoint (w : GridWorld) (g : Nat) (position : Vec) : Except GoPanic Nat :=
  match points w g with
  | [] => .error .indexOutOfRange
  | p :: rest =>
    .ok (rest.foldl (fun best c =>
      if ((w.pos best).sub position).magnitudeSquared
          < ((w.pos c).sub position).magnitudeSquared
      then c else best) p)

/-- Method `Grid.RandomPoint`: `gridPoints[rand.Intn(len(gridPoints))]`.  The
external generator's draw is the parameter `r`, reduced modulo the member
count; `rand.Intn(0)` panics, which is the empty-grid outcome. -/
def randomPoint (w : GridWorld) (g : Nat) (r : Nat) : Except GoPanic Nat :=
  let pts := points w g
  if pts.length = 0 then .error .intnNonPositive
  else .ok (pts.getD (r % pts.length) 0)

/-- Result of `Grid.Center`.  With zero members the Go code divides the
zero vector by `float64(0)`, producing NaN components; rationals cannot
represent that value, so it is the explicit `nanDivZero` constructor. -/
inductive CenterOut where
  | val (v : Vec)
  | nanDivZero
deriving DecidableEq, Repr

/-- Method `Grid.Center`: the sum of member world positions divided by the member
count (unguarded in the code). -/
def center (w : GridWorld) (g : Nat) : CenterOut :=
  let pts := points w g
  let s := pts.foldl (fun (acc : Vec) p => acc.add (w.pos p)) ⟨0, 0, 0⟩
  if pts.length = 0 then .nanDivZero else .val (s.divide pts.length)

/-- Go's `math.MaxFloat64`, exactly. -/
def maxFloat64 : ℚ := (2 ^ 53 - 1) * 2 ^ 971

/-- Method `Grid.NearestPositionOnGrid`: clamped projection of the query position
onto each segment incident to the nearest grid point, keeping the closest
projection; with no incident segments the query position itself is
returned.  (Go computes `t` by float division; a zero-length segment would
give NaN there — no claim exercises that case, and all cases used here
have nonzero segments or no segments at all.) -/
def nearestPositionOnGrid (w : GridWorld) (g : Nat) (position : Vec) : Except GoPanic Vec :=
  match nearestGridPoint w g position with
  | .error e => .error e
  | .ok np =>
    let start := w.pos np
    let r := (w.conns np).foldl
      (fun (best : ℚ × Vec) c =>
        let e := w.pos c
        let segment := e.sub start
        let newPos0 := position.sub start
        let t0 := newPos0.dot segment / segment.dot segment
        let t := if t0 > 1 then 1 else if t0 < 0 then 0 else t0
        let newPos : Vec :=
          ⟨start.x + segment.x * t, start.y + segment.y * t, start.z + segment.z * t⟩
        let nd := newPos.distanceSquared position
        if nd < best.1 then (nd, newPos) else best)
      (maxFloat64, position)
    .ok r.2

/-- Method `GridPath.Distance`: zero for at most one position, otherwise the sum
of consecutive segment magnitudes.  Magnitude takes a square root, an
operation of the external math library; the model abstracts it as the
parameter `sqrtFn` applied to the squared magnitude. -/
def gridPathDistance (sqrtFn : ℚ → ℚ) (pts : List Vec) : ℚ :=
  if pts.length ≤ 1 then 0
  else (pts.zip pts.tail).foldl
    (fun d ab => d + sqrtFn ((ab.2.sub ab.1).magnitudeSquared)) 0

/-! ## Parenting and `Grid.Combine`

`Combine` moves every child of each other grid under the receiver (the code
saves the child's world position, reparents, and restores it with
`SetWorldPositionVec`, so the move preserves world position), then for every
pair of members with approximately equal world positions transfers the
duplicate's connections onto the survivor and unparents the duplicate.

The transfer loop
```
for _, connect := range p2.Connections {
  p.Connect(connect)
  connect.Disconnect(p2)
}
```
ranges over `p2.Connections` while each `connect.Disconnect(p2)` shortens
that same backing array in place, so the captured header keeps reading the
mutating cells; the simulation threads `p2`'s physical array through the
loop exactly as `Disconnect`'s second pass writes it. -/

/-- Modelled from the spec: `Node.AddChildren` reparents a node — it is
removed from its previous parent's children, appended to the new parent's
children, and (together with the `SetWorldPositionVec` call `Combine`
pairs with it, under identity grid transforms) keeps its world position. -/
def addChild (w : GridWorld) (g p : Nat) : GridWorld :=
  let w1 : GridWorld :=
    match w.parent p with
    | none => w
    | some oldG =>
      { w with children := fun i =>
          if i = oldG then (w.children oldG).filter (fun c => c ≠ p) else w.children i }
  { w1 with
    parent := fun i => if i = p then some g else w1.parent i,
    children := fun i => if i = g then w1.children g ++ [p] else w1.children i }

/-- Modelled from the spec: `Unparent` detaches a node from its direct
parent (removing it from the member list); detaching preserves the node's
world position (identity grid transforms), and does not touch its
connections. -/
def unparentNode (w : GridWorld) (p : Nat) : GridWorld :=
  match w.parent p with
  | none => w
  | some g =>
    { w with
      parent := fun i => if i = p then none else w.parent i,
      children := fun i =>
        if i = g then (w.children g).filter (fun c => c ≠ p) else w.children i }

/-- The call `connect.Disconnect(p2)` as made from the transfer loop, where
`p2.Connections`'s backing array is the threaded `(arr, len)`: a no-op when
`connect` is `p2` itself; otherwise the first removal pass runs over
`connect`'s own freshly captured slice, and the second pass runs over the
threaded array with the current logical length as its captured length. -/
def disconnectThreaded (w : GridWorld) (t p2 : Nat) (arr : List (Option Nat)) (len : Nat) :
    Option (GridWorld × List (Option Nat) × Nat) :=
  if t = p2 then some (w, arr, len)
  else
    match removeAllGo (w.conns t) p2 with
    | none => none
    | some lt =>
      let w1 := setConns w t lt
      match removePass t len 0 arr len with
      | none => none
      | some r => some (w1, r.1, r.2)

/-- The connection-transfer loop of `Combine`, over the captured header of
`p2.Connections` (`steps` iterations, reading cell `i` of the threaded
physical array each time).  Reading a `nil` cell would make Go call a
method on a nil pointer (a fault), and a stale cell equal to `p2` would
alias `Connect`'s append into the ranged array; both are returned as
`none` (neither is reachable in the runs proved about below). -/
def transferLoop (p p2 : Nat) :
    Nat → Nat → GridWorld → List (Option Nat) → Nat →
    Option (GridWorld × List (Option Nat) × Nat)
  | 0, _, w, arr, len => some (w, arr, len)
  | steps + 1, i, w, arr, len =>
    match arr.getD i none with
    | none => none
    | some t =>
      if t = p2 then none
      else
        let w1 := connect w p t
        match disconnectThreaded w1 t p2 arr len with
        | none => none
        | some r => transferLoop p p2 steps (i + 1) r.1 r.2.1 r.2.2

/-- The body of the deduplication for one survivor candidate `p` and one
other member `p2`: when the world positions are approximately equal, run
the transfer loop over `p2.Connections` and unparent `p2`. -/
def dedupStep (w : GridWorld) (p p2 : Nat) : Option GridWorld :=
  if p = p2 then some w
  else if (w.pos p).equals (w.pos p2) then
    let l := w.conns p2
    match transferLoop p p2 l.length 0 w (l.map some) l.length with
    | none => none
    | some r => some (unparentNode (setConns r.1 p2 (physToLog r.2.1 r.2.2)) p2)
  else some w

/-- The inner deduplication loop: `p2` ranges over a snapshot of
`grid.Points()` taken when the loop starts. -/
def dedupInner (w : GridWorld) (p : Nat) : List Nat → Option GridWorld
  | [] => some w
  | p2 :: rest =>
    match dedupStep w p p2 with
    | none => none
    | some w1 => dedupInner w1 p rest

/-- The outer deduplication loop: `p` ranges over a snapshot taken before
any unparenting, and each iteration re-snapshots `grid.Points()` for the
inner loop. -/
def dedupOuter (w : GridWorld) (g : Nat) : List Nat → Option GridWorld
  | [] => some w
  | p :: rest =>
    match dedupInner w p (points w g) with
    | none => none
    | some w1 => dedupOuter w1 g rest

/-- Method `Grid.Combine` with a single other grid: skip self-combination, move
every child of `other` into `grid` preserving world positions, run the
pairwise deduplication, then detach the emptied other grid (grids are
roots here, so, following the spec, the detach leaves it an empty orphan
and changes no member data). -/
def combineOne (w : GridWorld) (g other : Nat) : Option GridWorld :=
  if g = other then some w
  else
    let w1 := (w.children other).foldl (fun acc p => addChild acc g p) w
    dedupOuter w1 g (points w1 g)

/-- Method `Grid.Combine` over the list of other grids. -/
def combine (w : GridWorld) (g : Nat) : List Nat → Option GridWorld
  | [] => some w
  | other :: rest =>
    match combineOne w g other with
    | none => none
    | some w1 => combine w1 g rest

/-! ## Concrete grids used by the theorems -/

/-- Connection lists of nodes `0, 1, 2, ...` given as a table. -/
def listFn (l : List (List Nat)) : Nat → List Nat := fun i => l.getD i []

/-- World positions of nodes `0, 1, 2, ...` given as a table. -/
def posFn (l : List Vec) : Nat → Vec := fun i => l.getD i ⟨0, 0, 0⟩

/-- A grid (id `100`) whose four points form two disjoint components
`0 – 1` and `2 – 3`. -/
def disjointWorld : GridWorld where
  conns := listFn [[1], [0], [3], [2]]
  parent := fun i => if i < 4 then some 100 else none
  children := fun g => if g = 100 then [0, 1, 2, 3] else []
  pos := posFn [⟨0, 0, 0⟩, ⟨1, 0, 0⟩, ⟨5, 0, 0⟩, ⟨6, 0, 0⟩]
  prevJournal := []

/-- A grid (id `100`) with destination `1` connected to source `0`, and a
pendant point `2` reachable only through the source. -/
def starWorld : GridWorld where
  conns := listFn [[1, 2], [0], [0]]
  parent := fun i => if i < 3 then some 100 else none
  children := fun g => if g = 100 then [0, 1, 2] else []
  pos := posFn [⟨0, 0, 0⟩, ⟨1, 0, 0⟩, ⟨0, 1, 0⟩]
  prevJournal := []

/-- A grid (id `100`) with a single unconnected point `0`. -/
def soloWorld : GridWorld where
  conns := listFn []
  parent := fun i => if i = 0 then some 100 else none
  children := fun g => if g = 100 then [0] else []
  pos := posFn []
  prevJournal := []

/-- A grid (id `100`) with no members at all. -/
def emptyGridWorld : GridWorld where
  conns := fun _ => []
  parent := fun _ => none
  children := fun _ => []
  pos := fun _ => ⟨0, 0, 0⟩
  prevJournal := []

/-- Two grids: `100` with points `0` (origin) and `1`, connected; `200`
with points `2` (also at the origin, coinciding with `0`) and `3`,
connected.  Exactly one point of each grid coincides with one of the
other. -/
def mergeWorld : GridWorld where
  conns := listFn [[1], [0], [3], [2]]
  parent := fun i => if i < 2 then some 100 else if i < 4 then some 200 else none
  children := fun g => if g = 100 then [0, 1] else if g = 200 then [2, 3] else []
  pos := posFn [⟨0, 0, 0⟩, ⟨1, 0, 0⟩, ⟨0, 0, 0⟩, ⟨2, 0, 0⟩]
  prevJournal := []

/-- The line `0 – 1 – 2 – 3` on grid `100`, connected in that order, with
arbitrary positions and an arbitrary stale `prevLink` journal `J` left by
earlier searches. -/
def lineWorld (pa pb pc pd : Vec) (J : List (Nat × Option Nat)) : GridWorld where
  conns := listFn [[1], [0, 2], [1, 3], [2]]
  parent := fun i => if i < 4 then some 100 else none
  children := fun g => if g = 100 then [0, 1, 2, 3] else []
  pos := posFn [pa, pb, pc, pd]
  prevJournal := J

/-- The line `0 – 1 – 2 – 3` plus an alternate route `0 – 4 – 5 – ⋯ –
(3+k) – 3` of `k` intermediate points added after the line (so every
connection list is ordered as the `Connect` calls would leave it).  For
`k ≥ 3` the route is strictly longer than the line.  Positions of the
four line points are `pa pb pc pd`; route points take theirs from `pe`;
`J` is a stale `prevLink` journal. -/
def altConns (k : Nat) : Nat → List Nat := fun n =>
  if n = 0 then [1, 4]
  else if n = 1 then [0, 2]
  else if n = 2 then [1, 3]
  else if n = 3 then [2, 3 + k]
  else if n = 4 then [0, 5]
  else if n = 3 + k then [2 + k, 3]
  else if n < 3 + k then [n - 1, n + 1]
  else []

/-- The grid world carrying `altConns k`; see `altConns`. -/
def altWorld (k : Nat) (pa pb pc pd : Vec) (pe : Nat → Vec)
    (J : List (Nat × Option Nat)) : GridWorld where
  conns := altConns k
  parent := fun i => if i < 4 + k then some 100 else none
  children := fun g => if g = 100 then List.range (4 + k) else []
  pos := fun i =>
    if i = 0 then pa else if i = 1 then pb else if i = 2 then pc
    else if i = 3 then pd else pe i
  prevJournal := J

/-- Two points `0`, `1` on grid `100` with no connections yet. -/
def twoPointsWorld : GridWorld where
  conns := fun _ => []
  parent := fun i => if i < 2 then some 100 else none
  children := fun g => if g = 100 then [0, 1] else []
  pos := posFn [⟨0, 0, 0⟩, ⟨1, 0, 0⟩]
  prevJournal := []

/-- The documented invariant on connection lists: no duplicate entries, no
self-connection, and symmetry (if `A` lists `B`, `B` lists `A`). -/
def ConnInv (w : GridWorld) : Prop :=
  (∀ i, (w.conns i).Nodup) ∧ (∀ i, i ∉ w.conns i) ∧
    ∀ i j, i ∈ w.conns j ↔ j ∈ w.conns i

/-- The function `ratAbs` is Mathlib's absolute value. -/
theorem ratAbs_eq_abs (q : ℚ) : Vec.ratAbs q = |q| := by
  rw [Vec.ratAbs]
  rcases le_or_lt 0 q with h | h
  · rw [if_neg (not_lt.mpr h), abs_of_nonneg h]
  · rw [if_pos h, abs_of_neg h]

/-- The test `closeAbs a b eps` is exactly the comparison `|a - b| ≤ eps`. -/
theorem closeAbs_iff (a b eps : ℚ) :
    Vec.closeAbs a b eps = true ↔ Vec.ratAbs (a - b) ≤ eps := by
  rw [ratAbs_eq_abs, Vec.closeAbs, decide_eq_true_eq]
  have had : (0 : ℚ) < (a.den : ℚ) := by exact_mod_cast a.pos
  have hbd : (0 : ℚ) < (b.den : ℚ) := by exact_mod_cast b.pos
  have hed : (0 : ℚ) < (eps.den : ℚ) := by exact_mod_cast eps.pos
  have hsub : a - b = ((a.num * b.den - b.num * a.den : ℤ) : ℚ) /
      ((a.den * b.den : ℤ) : ℚ) := by
    rw [Rat.sub_def, Rat.normalize_eq_mkRat, Rat.mkRat_eq_div]
    push_cast
    ring_nf
  have heps : eps = ((eps.num : ℚ)) / ((eps.den : ℚ)) := (Rat.num_div_den eps).symm
  rw [hsub]
  rw [abs_div]
  have hdd : (0 : ℚ) < ((a.den * b.den : ℤ) : ℚ) := by
    push_cast; positivity
  rw [abs_of_pos hdd]
  conv_rhs => rw [heps]
  rw [div_le_div_iff₀ hdd hed]
  rw [show |((a.num * b.den - b.num * a.den : ℤ) : ℚ)| =
      (((a.num * b.den - b.num * a.den).natAbs : ℤ) : ℚ) by
    simp [Int.cast_natAbs]]
  constructor
  · intro h
    exact_mod_cast h
  · intro h
    exact_mod_cast h


/-! ### Helper lemmas for evaluating `PathTo` searches symbolically -/

/-- Once the search loop finishes (break or panic) within some fuel bound,
any additional fuel leaves its result unchanged: the bound is a pure model
artifact. -/
theorem bfsLoop_add_of_ne_outOfFuel (w : GridWorld) (pt : Nat) :
    ∀ (fuel m : Nat) (next : Option Nat) (tc chk : List Nat)
      (prev : List (Nat × Option Nat)),
      bfsLoop w pt fuel next tc chk prev ≠ .outOfFuel →
      bfsLoop w pt (fuel + m) next tc chk prev
        = bfsLoop w pt fuel next tc chk prev
  | 0, _, _, _, _, _, h => absurd rfl h
  | fuel + 1, m, next, tc, chk, prev, h => by
    rw [show fuel + 1 + m = (fuel + m) + 1 by omega]
    simp only [bfsLoop] at h ⊢
    match hs : bfsStep w pt next tc chk prev with
    | .broke p => simp only [hs]
    | .panicEmptyQueue => simp only [hs]
    | .stepped nx tc' chk' pv =>
      simp only [hs] at h ⊢
      exact bfsLoop_add_of_ne_outOfFuel w pt fuel m nx tc' chk' pv h

theorem expandStep_skip (n : Nat) (chk : List Nat)
    (st : List Nat × List (Nat × Option Nat)) (c : Nat) (h : c ∈ chk) :
    expandStep n chk st c = st := by
  simp [expandStep, List.elem_iff, h]

theorem expandStep_enq (n : Nat) (chk : List Nat)
    (st : List Nat × List (Nat × Option Nat)) (c : Nat) (h : c ∉ chk) :
    expandStep n chk st c = (st.1 ++ [c], (c, some n) :: st.2) := by
  simp [expandStep, List.elem_iff, h]

theorem bfsStep_stepped (w : GridWorld) (pt : Nat) (next : Option Nat)
    (n : Nat) (rest chk : List Nat) (prev : List (Nat × Option Nat))
    (hne : next ≠ some pt) :
    bfsStep w pt next (n :: rest) chk prev =
      .stepped (some n)
        ((w.conns n).foldl (expandStep n (n :: chk)) (rest, prev)).1
        (n :: chk)
        ((w.conns n).foldl (expandStep n (n :: chk)) (rest, prev)).2 := by
  simp [bfsStep, hne]

theorem bfsLoop_succ (w : GridWorld) (pt fuel : Nat) (next : Option Nat)
    (tc chk : List Nat) (prev : List (Nat × Option Nat)) :
    bfsLoop w pt (fuel + 1) next tc chk prev =
      match bfsStep w pt next tc chk prev with
      | .broke p => .broke p
      | .panicEmptyQueue => .panicEmptyQueue
      | .stepped nx tc' chk' pv => bfsLoop w pt fuel nx tc' chk' pv := rfl

theorem prevAt_cons_ne (a : Nat) (v : Option Nat)
    (j : List (Nat × Option Nat)) (n : Nat) (h : a ≠ n) :
    prevAt ((a, v) :: j) n = prevAt j n := by
  simp [prevAt, List.find?, h]

theorem prevAt_cons_eq (a : Nat) (v : Option Nat)
    (j : List (Nat × Option Nat)) :
    prevAt ((a, v) :: j) a = v := by
  simp [prevAt, List.find?]

theorem walkPrev_succ (w : GridWorld) (prev : List (Nat × Option Nat))
    (n fuel : Nat) :
    walkPrev w prev n (fuel + 1) =
      match prevAt prev n with
      | none => some []
      | some m => (walkPrev w prev m fuel).map fun l => w.pos n :: l := rfl


/-- The search on the plain four-point line yields the four positions in
source-to-destination order. -/
theorem pathTo_lineWorld_eq (pa pb pc pd : Vec) (J : List (Nat × Option Nat))
    (fuel : Nat) (hfuel : 7 ≤ fuel) :
    pathTo (lineWorld pa pb pc pd J) 0 3 fuel = .path [pa, pb, pc, pd] := by
  obtain ⟨f, rfl⟩ : ∃ m, fuel = m + 7 := ⟨fuel - 7, by omega⟩
  set W := lineWorld pa pb pc pd J with hW
  have e0 : W.conns 0 = [1] := by simp [hW, lineWorld, listFn]
  have e1 : W.conns 1 = [0, 2] := by simp [hW, lineWorld, listFn]
  have e2 : W.conns 2 = [1, 3] := by simp [hW, lineWorld, listFn]
  have e3 : W.conns 3 = [2] := by simp [hW, lineWorld, listFn]
  have hp0 : W.pos 0 = pa := by simp [hW, lineWorld, posFn]
  have hp1 : W.pos 1 = pb := by simp [hW, lineWorld, posFn]
  have hp2 : W.pos 2 = pc := by simp [hW, lineWorld, posFn]
  have hp3 : W.pos 3 = pd := by simp [hW, lineWorld, posFn]
  set Q0 : List (Nat × Option Nat) := (0, none) :: (3, none) :: J with hQ0
  set Q1 : List (Nat × Option Nat) := (2, some 3) :: Q0 with hQ1
  set Q2 : List (Nat × Option Nat) := (1, some 2) :: Q1 with hQ2
  set Q3 : List (Nat × Option Nat) := (0, some 1) :: Q2 with hQ3
  have s1 : bfsStep W 0 none [3] [] Q0 = .stepped (some 3) [2] [3] Q1 := by
    rw [bfsStep_stepped W 0 none 3 [] [] Q0 (by simp), e3,
      List.foldl_cons, expandStep_enq 3 [3] ([], Q0) 2 (by simp),
      List.foldl_nil]
    rfl
  have s2 : bfsStep W 0 (some 3) [2] [3] Q1
      = .stepped (some 2) [1] [2, 3] Q2 := by
    rw [bfsStep_stepped W 0 (some 3) 2 [] [3] Q1 (by simp), e2,
      List.foldl_cons, expandStep_enq 2 [2, 3] ([], Q1) 1 (by simp),
      List.foldl_cons, expandStep_skip 2 [2, 3] _ 3 (by simp),
      List.foldl_nil]
    rfl
  have s3 : bfsStep W 0 (some 2) [1] [2, 3] Q2
      = .stepped (some 1) [0] [1, 2, 3] Q3 := by
    rw [bfsStep_stepped W 0 (some 2) 1 [] [2, 3] Q2 (by simp), e1,
      List.foldl_cons, expandStep_enq 1 [1, 2, 3] ([], Q2) 0 (by simp),
      List.foldl_cons, expandStep_skip 1 [1, 2, 3] _ 2 (by simp),
      List.foldl_nil]
    rfl
  have s4 : bfsStep W 0 (some 1) [0] [1, 2, 3] Q3
      = .stepped (some 0) [] [0, 1, 2, 3] Q3 := by
    rw [bfsStep_stepped W 0 (some 1) 0 [] [1, 2, 3] Q3 (by simp), e0,
      List.foldl_cons, expandStep_skip 0 [0, 1, 2, 3] ([], Q3) 1 (by simp),
      List.foldl_nil]
  have s5 : bfsStep W 0 (some 0) [] [0, 1, 2, 3] Q3 = .broke Q3 := by
    simp [bfsStep]
  have L : bfsLoop W 0 (f + 7) none [3] [] Q0 = .broke Q3 := by
    rw [show f + 7 = (f + 6) + 1 by omega, bfsLoop_succ, s1]
    show bfsLoop W 0 (f + 6) (some 3) [2] [3] Q1 = .broke Q3
    rw [show f + 6 = (f + 5) + 1 by omega, bfsLoop_succ, s2]
    show bfsLoop W 0 (f + 5) (some 2) [1] [2, 3] Q2 = .broke Q3
    rw [show f + 5 = (f + 4) + 1 by omega, bfsLoop_succ, s3]
    show bfsLoop W 0 (f + 4) (some 1) [0] [1, 2, 3] Q3 = .broke Q3
    rw [show f + 4 = (f + 3) + 1 by omega, bfsLoop_succ, s4]
    show bfsLoop W 0 (f + 3) (some 0) [] [0, 1, 2, 3] Q3 = .broke Q3
    rw [show f + 3 = (f + 2) + 1 by omega, bfsLoop_succ, s5]
  have a0 : prevAt Q3 0 = some 1 := by
    rw [hQ3, prevAt_cons_eq]
  have a1 : prevAt Q3 1 = some 2 := by
    rw [hQ3, prevAt_cons_ne _ _ _ _ (by omega), hQ2, prevAt_cons_eq]
  have a2 : prevAt Q3 2 = some 3 := by
    rw [hQ3, prevAt_cons_ne _ _ _ _ (by omega), hQ2,
      prevAt_cons_ne _ _ _ _ (by omega), hQ1, prevAt_cons_eq]
  have a3 : prevAt Q3 3 = none := by
    rw [hQ3, prevAt_cons_ne _ _ _ _ (by omega), hQ2,
      prevAt_cons_ne _ _ _ _ (by omega), hQ1,
      prevAt_cons_ne _ _ _ _ (by omega), hQ0,
      prevAt_cons_ne _ _ _ _ (by omega), prevAt_cons_eq]
  have hwalk : walkPrev W Q3 0 (f + 7) = some [pa, pb, pc] := by
    rw [show f + 7 = (f + 6) + 1 by omega, walkPrev_succ, a0]
    show (walkPrev W Q3 1 (f + 6)).map (fun l => W.pos 0 :: l) = _
    rw [show f + 6 = (f + 5) + 1 by omega, walkPrev_succ, a1]
    show ((walkPrev W Q3 2 (f + 5)).map (fun l => W.pos 1 :: l)).map
      (fun l => W.pos 0 :: l) = _
    rw [show f + 5 = (f + 4) + 1 by omega, walkPrev_succ, a2]
    show (((walkPrev W Q3 3 (f + 4)).map (fun l => W.pos 2 :: l)).map
      (fun l => W.pos 1 :: l)).map (fun l => W.pos 0 :: l) = _
    rw [show f + 4 = (f + 3) + 1 by omega, walkPrev_succ, a3]
    simp [hp0, hp1, hp2]
  have hsame : isOnSameGrid W 0 3 = true := by
    simp [isOnSameGrid, hW, lineWorld]
  rw [pathTo, if_neg (by simp [hsame]), if_neg (by omega)]
  have hJ : (0, none) :: (3, none) :: W.prevJournal = Q0 := by
    simp [hW, lineWorld, hQ0]
  rw [hJ]
  simp only [L, hwalk]
  simp [hp3]


/-- The search on `altWorld k` (`k ≥ 3`): the breadth-first traversal
seeded at the destination reaches the source along the line after six
dequeues regardless of the alternate route's length, and reconstruction
yields the four line positions in source-to-destination order. -/
theorem pathTo_altWorld_eq (pa pb pc pd : Vec) (pe : Nat → Vec)
    (J : List (Nat × Option Nat)) (k fuel : Nat)
    (hk : 3 ≤ k) (hfuel : 7 ≤ fuel) :
    pathTo (altWorld k pa pb pc pd pe J) 0 3 fuel = .path [pa, pb, pc, pd] := by
  obtain ⟨k', rfl⟩ : ∃ m, k = m + 3 := ⟨k - 3, by omega⟩
  obtain ⟨f, rfl⟩ : ∃ m, fuel = m + 7 := ⟨fuel - 7, by omega⟩
  set W := altWorld (k' + 3) pa pb pc pd pe J with hW
  -- connection lists, in canonical form
  have e0 : W.conns 0 = [1, 4] := by simp [hW, altWorld, altConns]
  have e1 : W.conns 1 = [0, 2] := by simp [hW, altWorld, altConns]
  have e2 : W.conns 2 = [1, 3] := by simp [hW, altWorld, altConns]
  have e3 : W.conns 3 = [2, k' + 6] := by
    simp [hW, altWorld, altConns]
    omega
  have e6 : W.conns (k' + 6) = [k' + 5, 3] := by
    show altConns (k' + 3) (k' + 6) = [k' + 5, 3]
    unfold altConns
    rw [if_neg (by omega), if_neg (by omega), if_neg (by omega),
      if_neg (by omega), if_neg (by omega), if_pos (by omega)]
    simp only [List.cons.injEq, and_true]
    omega
  have e5 : W.conns (k' + 5) = [k' + 4, k' + 6] := by
    show altConns (k' + 3) (k' + 5) = [k' + 4, k' + 6]
    unfold altConns
    rw [if_neg (by omega), if_neg (by omega), if_neg (by omega),
      if_neg (by omega), if_neg (by omega), if_neg (by omega),
      if_pos (by omega)]
    simp only [List.cons.injEq, and_true]
    omega
  have hp0 : W.pos 0 = pa := by simp [hW, altWorld]
  have hp1 : W.pos 1 = pb := by simp [hW, altWorld]
  have hp2 : W.pos 2 = pc := by simp [hW, altWorld]
  have hp3 : W.pos 3 = pd := by simp [hW, altWorld]
  set P0 : List (Nat × Option Nat) := (0, none) :: (3, none) :: J with hP0
  set P1 : List (Nat × Option Nat) := (k' + 6, some 3) :: (2, some 3) :: P0 with hP1
  set P2 : List (Nat × Option Nat) := (1, some 2) :: P1 with hP2
  set P3 : List (Nat × Option Nat) := (k' + 5, some (k' + 6)) :: P2 with hP3
  set P4 : List (Nat × Option Nat) := (0, some 1) :: P3 with hP4
  set P5 : List (Nat × Option Nat) := (k' + 4, some (k' + 5)) :: P4 with hP5
  set P6 : List (Nat × Option Nat) := (4, some 0) :: P5 with hP6
  have s1 : bfsStep W 0 none [3] [] P0
      = .stepped (some 3) [2, k' + 6] [3] P1 := by
    rw [bfsStep_stepped W 0 none 3 [] [] P0 (by simp), e3,
      List.foldl_cons, expandStep_enq 3 [3] ([], P0) 2 (by simp),
      List.foldl_cons, expandStep_enq 3 [3] _ (k' + 6) (by simp),
      List.foldl_nil]
    rfl
  have s2 : bfsStep W 0 (some 3) [2, k' + 6] [3] P1
      = .stepped (some 2) [k' + 6, 1] [2, 3] P2 := by
    rw [bfsStep_stepped W 0 (some 3) 2 [k' + 6] [3] P1 (by simp), e2,
      List.foldl_cons, expandStep_enq 2 [2, 3] ([k' + 6], P1) 1 (by simp),
      List.foldl_cons, expandStep_skip 2 [2, 3] _ 3 (by simp),
      List.foldl_nil]
    rfl
  have s3 : bfsStep W 0 (some 2) [k' + 6, 1] [2, 3] P2
      = .stepped (some (k' + 6)) [1, k' + 5] [k' + 6, 2, 3] P3 := by
    rw [bfsStep_stepped W 0 (some 2) (k' + 6) [1] [2, 3] P2 (by simp), e6,
      List.foldl_cons,
      expandStep_enq (k' + 6) [k' + 6, 2, 3] ([1], P2) (k' + 5) (by simp),
      List.foldl_cons, expandStep_skip (k' + 6) [k' + 6, 2, 3] _ 3 (by simp),
      List.foldl_nil]
    rfl
  have s4 : bfsStep W 0 (some (k' + 6)) [1, k' + 5] [k' + 6, 2, 3] P3
      = .stepped (some 1) [k' + 5, 0] [1, k' + 6, 2, 3] P4 := by
    rw [bfsStep_stepped W 0 (some (k' + 6)) 1 [k' + 5] [k' + 6, 2, 3] P3
        (by simp), e1,
      List.foldl_cons,
      expandStep_enq 1 [1, k' + 6, 2, 3] ([k' + 5], P3) 0 (by simp),
      List.foldl_cons, expandStep_skip 1 [1, k' + 6, 2, 3] _ 2 (by simp),
      List.foldl_nil]
    rfl
  have s5 : bfsStep W 0 (some 1) [k' + 5, 0] [1, k' + 6, 2, 3] P4
      = .stepped (some (k' + 5)) [0, k' + 4] [k' + 5, 1, k' + 6, 2, 3] P5 := by
    rw [bfsStep_stepped W 0 (some 1) (k' + 5) [0] [1, k' + 6, 2, 3] P4
        (by simp), e5,
      List.foldl_cons,
      expandStep_enq (k' + 5) [k' + 5, 1, k' + 6, 2, 3] ([0], P4) (k' + 4)
        (by simp),
      List.foldl_cons,
      expandStep_skip (k' + 5) [k' + 5, 1, k' + 6, 2, 3] _ (k' + 6) (by simp),
      List.foldl_nil]
    rfl
  have s6 : bfsStep W 0 (some (k' + 5)) [0, k' + 4] [k' + 5, 1, k' + 6, 2, 3] P5
      = .stepped (some 0) [k' + 4, 4] [0, k' + 5, 1, k' + 6, 2, 3] P6 := by
    rw [bfsStep_stepped W 0 (some (k' + 5)) 0 [k' + 4] [k' + 5, 1, k' + 6, 2, 3]
        P5 (by simp), e0,
      List.foldl_cons,
      expandStep_skip 0 [0, k' + 5, 1, k' + 6, 2, 3] ([k' + 4], P5) 1 (by simp),
      List.foldl_cons,
      expandStep_enq 0 [0, k' + 5, 1, k' + 6, 2, 3] _ 4 (by simp),
      List.foldl_nil]
    rfl
  have s7 : bfsStep W 0 (some 0) [k' + 4, 4] [0, k' + 5, 1, k' + 6, 2, 3] P6
      = .broke P6 := by
    simp [bfsStep]
  have L : bfsLoop W 0 (f + 7) none [3] [] P0 = .broke P6 := by
    rw [show f + 7 = (f + 6) + 1 by omega, bfsLoop_succ, s1]
    show bfsLoop W 0 (f + 6) (some 3) [2, k' + 6] [3] P1 = .broke P6
    rw [show f + 6 = (f + 5) + 1 by omega, bfsLoop_succ, s2]
    show bfsLoop W 0 (f + 5) (some 2) [k' + 6, 1] [2, 3] P2 = .broke P6
    rw [show f + 5 = (f + 4) + 1 by omega, bfsLoop_succ, s3]
    show bfsLoop W 0 (f + 4) (some (k' + 6)) [1, k' + 5] [k' + 6, 2, 3] P3
      = .broke P6
    rw [show f + 4 = (f + 3) + 1 by omega, bfsLoop_succ, s4]
    show bfsLoop W 0 (f + 3) (some 1) [k' + 5, 0] [1, k' + 6, 2, 3] P4
      = .broke P6
    rw [show f + 3 = (f + 2) + 1 by omega, bfsLoop_succ, s5]
    show bfsLoop W 0 (f + 2) (some (k' + 5)) [0, k' + 4]
      [k' + 5, 1, k' + 6, 2, 3] P5 = .broke P6
    rw [show f + 2 = (f + 1) + 1 by omega, bfsLoop_succ, s6]
    show bfsLoop W 0 (f + 1) (some 0) [k' + 4, 4]
      [0, k' + 5, 1, k' + 6, 2, 3] P6 = .broke P6
    rw [bfsLoop_succ, s7]
  have a0 : prevAt P6 0 = some 1 := by
    rw [hP6, prevAt_cons_ne _ _ _ _ (by omega), hP5,
      prevAt_cons_ne _ _ _ _ (by omega), hP4, prevAt_cons_eq]
  have a1 : prevAt P6 1 = some 2 := by
    rw [hP6, prevAt_cons_ne _ _ _ _ (by omega), hP5,
      prevAt_cons_ne _ _ _ _ (by omega), hP4,
      prevAt_cons_ne _ _ _ _ (by omega), hP3,
      prevAt_cons_ne _ _ _ _ (by omega), hP2, prevAt_cons_eq]
  have a2 : prevAt P6 2 = some 3 := by
    rw [hP6, prevAt_cons_ne _ _ _ _ (by omega), hP5,
      prevAt_cons_ne _ _ _ _ (by omega), hP4,
      prevAt_cons_ne _ _ _ _ (by omega), hP3,
      prevAt_cons_ne _ _ _ _ (by omega), hP2,
      prevAt_cons_ne _ _ _ _ (by omega), hP1,
      prevAt_cons_ne _ _ _ _ (by omega), prevAt_cons_eq]
  have a3 : prevAt P6 3 = none := by
    rw [hP6, prevAt_cons_ne _ _ _ _ (by omega), hP5,
      prevAt_cons_ne _ _ _ _ (by omega), hP4,
      prevAt_cons_ne _ _ _ _ (by omega), hP3,
      prevAt_cons_ne _ _ _ _ (by omega), hP2,
      prevAt_cons_ne _ _ _ _ (by omega), hP1,
      prevAt_cons_ne _ _ _ _ (by omega),
      prevAt_cons_ne _ _ _ _ (by omega), hP0,
      prevAt_cons_ne _ _ _ _ (by omega), prevAt_cons_eq]
  have hwalk : walkPrev W P6 0 (f + 7) = some [pa, pb, pc] := by
    rw [show f + 7 = (f + 6) + 1 by omega, walkPrev_succ, a0]
    show (walkPrev W P6 1 (f + 6)).map (fun l => W.pos 0 :: l) = _
    rw [show f + 6 = (f + 5) + 1 by omega, walkPrev_succ, a1]
    show ((walkPrev W P6 2 (f + 5)).map (fun l => W.pos 1 :: l)).map
      (fun l => W.pos 0 :: l) = _
    rw [show f + 5 = (f + 4) + 1 by omega, walkPrev_succ, a2]
    show (((walkPrev W P6 3 (f + 4)).map (fun l => W.pos 2 :: l)).map
      (fun l => W.pos 1 :: l)).map (fun l => W.pos 0 :: l) = _
    rw [show f + 4 = (f + 3) + 1 by omega, walkPrev_succ, a3]
    simp [hp0, hp1, hp2]
  have hsame : isOnSameGrid W 0 3 = true := by
    simp [isOnSameGrid, hW, altWorld]
    omega
  rw [pathTo, if_neg (by simp [hsame]), if_neg (by omega)]
  have hJ : (0, none) :: (3, none) :: W.prevJournal = P0 := by
    simp [hW, altWorld, hP0]
  rw [hJ]
  simp only [L, hwalk]
  simp [hp3]


/-! ### Helper lemmas on `connect` -/

theorem isConnected_iff (w : GridWorld) (p q : Nat) :
    isConnected w p q = true ↔ q ∈ w.conns p := by
  simp [isConnected, List.elem_iff]

theorem connect_self (w : GridWorld) (p : Nat) : connect w p p = w := by
  simp [connect]

theorem isConnected_connect_left (w : GridWorld) (p q : Nat) (h : p ≠ q) :
    isConnected (connect w p q) p q = true := by
  simp only [connect, if_neg h, isConnected]
  by_cases h1 : isConnected w p q
  · by_cases h2 : isConnected w q p <;>
      simp_all [isConnected, setConns, h.symm]
  · by_cases h2 : isConnected (setConns w p (w.conns p ++ [q])) q p <;>
      simp_all [isConnected, setConns, h.symm]

theorem isConnected_connect_right (w : GridWorld) (p q : Nat) (h : p ≠ q) :
    isConnected (connect w p q) q p = true := by
  simp only [connect, if_neg h, isConnected]
  by_cases h1 : isConnected w p q
  · by_cases h2 : isConnected w q p <;>
      simp_all [isConnected, setConns, h.symm]
  · by_cases h2 : isConnected (setConns w p (w.conns p ++ [q])) q p <;>
      simp_all [isConnected, setConns, h.symm]

theorem connect_of_connected (w : GridWorld) (p q : Nat)
    (h1 : isConnected w p q = true) (h2 : isConnected w q p = true) :
    connect w p q = w := by
  by_cases h : p = q
  · subst h; exact connect_self w p
  · simp [connect, h, h1, h2]

theorem connect_idem (w : GridWorld) (p q : Nat) :
    connect (connect w p q) p q = connect w p q := by
  by_cases h : p = q
  · subst h; simp [connect_self]
  · exact connect_of_connected _ p q (isConnected_connect_left w p q h)
      (isConnected_connect_right w p q h)

theorem conns_connect (w : GridWorld) (p q : Nat) (h : p ≠ q) (i : Nat) :
    (connect w p q).conns i =
      if i = p then (if q ∈ w.conns p then w.conns p else w.conns p ++ [q])
      else if i = q then (if p ∈ w.conns q then w.conns q else w.conns q ++ [p])
      else w.conns i := by
  have hqp : q ≠ p := Ne.symm h
  by_cases h1 : q ∈ w.conns p <;> by_cases h2 : p ∈ w.conns q <;>
    simp only [connect, if_neg h, isConnected, setConns, List.elem_iff, h1, h2,
      if_pos, if_neg, decide_eq_true_eq] <;>
    by_cases hip : i = p <;> by_cases hiq : i = q <;> simp_all [hqp]

theorem mem_conns_connect (w : GridWorld) (p q : Nat) (h : p ≠ q) (i j : Nat) :
    j ∈ (connect w p q).conns i ↔
      j ∈ w.conns i ∨ (i = p ∧ j = q) ∨ (i = q ∧ j = p) := by
  rw [conns_connect w p q h i]
  by_cases hip : i = p <;> by_cases hiq : i = q <;> subst_eqs <;> simp_all <;>
    split <;> simp_all

theorem connInv_connect (w : GridWorld) (p q : Nat) (h : p ≠ q)
    (hinv : ConnInv w) : ConnInv (connect w p q) := by
  obtain ⟨hnd, hself, hsym⟩ := hinv
  refine ⟨fun i => ?_, fun i => ?_, fun i j => ?_⟩
  · rw [conns_connect w p q h i]
    split
    · split
      · exact hnd p
      · simp only [List.nodup_append, List.nodup_cons]
        exact ⟨hnd p, by simp, by simpa using fun hq => ‹q ∉ w.conns p› hq⟩
    · split
      · split
        · exact hnd q
        · simp only [List.nodup_append, List.nodup_cons]
          exact ⟨hnd q, by simp, by simpa using fun hp => ‹p ∉ w.conns q› hp⟩
      · exact hnd i
  · rw [mem_conns_connect w p q h i i]
    push_neg
    exact ⟨hself i, fun hip => by subst hip; exact h,
      fun hiq => by subst hiq; exact Ne.symm h⟩
  · rw [mem_conns_connect w p q h i j, mem_conns_connect w p q h j i, hsym i j]
    tauto

/-! ### Helper lemmas on the removal pass and `disconnect` -/

theorem removePass_no_match (t : Nat) :
    ∀ (steps i : Nat) (arr : List (Option Nat)) (len : Nat),
      (∀ j, i ≤ j → arr.getD j none ≠ some t) →
      removePass t steps i arr len = some (arr, len)
  | 0, _, _, _, _ => rfl
  | steps + 1, i, arr, len, h => by
    rw [removePass, if_neg (h i le_rfl)]
    exact removePass_no_match t steps (i + 1) arr len fun j hj => h j (by omega)

theorem removePass_skip (t : Nat) (m : Nat) :
    ∀ (steps i : Nat) (arr : List (Option Nat)) (len : Nat),
      (∀ j, i ≤ j → j < i + m → arr.getD j none ≠ some t) →
      removePass t (m + steps) i arr len = removePass t steps (i + m) arr len := by
  induction m with
  | zero => intro steps i arr len _; simp
  | succ m ih =>
    intro steps i arr len h
    rw [show m + 1 + steps = (m + steps) + 1 by omega, removePass,
      if_neg (h i le_rfl (by omega))]
    rw [ih steps (i + 1) arr len fun j hj hj2 => h j (by omega) (by omega)]
    congr 1
    omega

theorem goRemoveShift_getD (arr : List (Option Nat)) (len i j : Nat)
    (hi : i < len) (hlen : len ≤ arr.length) :
    (goRemoveShift arr len i).getD j none =
      if j < i then arr.getD j none
      else if j + 2 ≤ len then arr.getD (j + 1) none
      else if j = i then none
      else arr.getD j none := by
  by_cases hj : j < arr.length
  · simp only [goRemoveShift, List.getD_eq_getElem?_getD, List.getElem?_map,
      List.getElem?_range, hj, if_pos]
    simp
  · push_neg at hj
    have h1 : (goRemoveShift arr len i).getD j none = none := by
      apply List.getD_eq_default
      simp [goRemoveShift]
      omega
    rw [h1, if_neg (by omega), if_neg (by omega), if_neg (by omega),
      List.getD_eq_default _ _ hj]

theorem getD_map_some (l : List Nat) (j : Nat) :
    (l.map some).getD j none = l[j]? := by
  by_cases hj : j < l.length
  · simp [List.getD_eq_getElem?_getD, List.getElem?_map, List.getElem?_eq_getElem, hj]
  · push_neg at hj
    rw [List.getD_eq_default _ _ (by simpa using hj), List.getElem?_eq_none hj]

theorem take_eq_map_some (arr : List (Option Nat)) (m : Nat) (g : List Nat)
    (hm : m ≤ arr.length) (hg : g.length = m)
    (h : ∀ j, j < m → arr.getD j none = some (g.getD j 0)) :
    arr.take m = g.map some := by
  apply List.ext_getElem?
  intro j
  by_cases hj : j < m
  · have hjg : j < g.length := by omega
    have hja : j < arr.length := by omega
    rw [List.getElem?_take_of_lt hj, List.getElem?_map,
      List.getElem?_eq_getElem hja, List.getElem?_eq_getElem hjg]
    have hv := h j hj
    rw [List.getD_eq_getElem?_getD, List.getElem?_eq_getElem hja] at hv
    simp only [Option.getD_some] at hv
    simp only [Option.map_some']
    rw [hv]
    simp [List.getD_eq_getElem?_getD, List.getElem?_eq_getElem hjg]
  · push_neg at hj
    rw [List.getElem?_eq_none (by simp [List.length_take]; omega),
      List.getElem?_eq_none (by simp [hg]; omega)]

theorem physToLog_of_map (arr : List (Option Nat)) (m : Nat) (g : List Nat)
    (hm : m ≤ arr.length) (hg : g.length = m)
    (h : ∀ j, j < m → arr.getD j none = some (g.getD j 0)) :
    physToLog arr m = g := by
  rw [physToLog, take_eq_map_some arr m g hm hg h]
  rw [show (Option.some : Nat → Option Nat) = fun x => id (some x) from rfl] at *
  simp [List.filterMap_map]

theorem removeAllGo_not_mem (l : List Nat) (t : Nat) (ht : t ∉ l) :
    removeAllGo l t = some l := by
  rw [removeAllGo, removePass_no_match]
  · simp only [Option.map_some']
    congr 1
    exact physToLog_of_map _ _ l (by simp) rfl fun j hj => by
      rw [getD_map_some, List.getElem?_eq_getElem (by simpa using hj)]
      simp [List.getD_eq_getElem?_getD, List.getElem?_eq_getElem (by simpa using hj)]
  · intro j _ hc
    rw [getD_map_some] at hc
    exact ht (List.getElem?_mem hc)

theorem removeAllGo_single (l1 l2 : List Nat) (t : Nat)
    (h1 : t ∉ l1) (h2 : t ∉ l2) :
    removeAllGo (l1 ++ t :: l2) t = some (l1 ++ l2) := by
  set L := l1 ++ t :: l2 with hL
  have honly : ∀ j, L[j]? = some t → j = l1.length := by
    intro j hj
    by_cases ha : j < l1.length
    · rw [hL, List.getElem?_append_left ha, List.getElem?_eq_getElem ha] at hj
      exact absurd (List.getElem_mem ha) (by simp at hj; rw [hj]; exact h1)
    · push_neg at ha
      by_cases hb : j = l1.length
      · exact hb
      · have hc : l1.length < j := by omega
        rw [hL, List.getElem?_append_right ha] at hj
        rcases Nat.exists_eq_add_of_lt hc with ⟨m, rfl⟩
        rw [show l1.length + m + 1 - l1.length = m + 1 by omega] at hj
        simp only [List.getElem?_cons_succ] at hj
        exact absurd (List.getElem?_mem hj) h2
  have hlen : L.length = l1.length + (l2.length + 1) := by simp [hL]
  rw [removeAllGo, hlen]
  rw [removePass_skip t l1.length (l2.length + 1) 0 _ _ (fun j hj hj2 => by
    rw [getD_map_some]
    intro hc
    have := honly j hc
    omega)]
  rw [show (0 + l1.length) = l1.length by omega]
  rw [removePass]
  rw [if_pos (by rw [getD_map_some, hL, List.getElem?_append_right le_rfl]; simp)]
  rw [if_pos (by omega)]
  set arr2 := goRemoveShift (L.map some) (l1.length + (l2.length + 1)) l1.length
    with harr2
  have harr2_getD : ∀ j, arr2.getD j none =
      if j < l1.length then L[j]?
      else if j + 2 ≤ l1.length + (l2.length + 1) then L[j + 1]?
      else if j = l1.length then none
      else L[j]? := by
    intro j
    rw [harr2, goRemoveShift_getD _ _ _ _ (by omega) (by simp [hL])]
    split
    · rw [getD_map_some]
    · split
      · rw [getD_map_some]
      · split
        · rfl
        · rw [getD_map_some]
  rw [removePass_no_match t _ _ _ _ (fun j hj hc => by
    rw [harr2_getD j] at hc
    split at hc
    · omega
    · split at hc
      · have := honly _ hc; omega
      · split at hc
        · exact Option.noConfusion hc
        · have := honly _ hc; omega)]
  simp only [Option.map_some']
  congr 1
  apply physToLog_of_map _ _ (l1 ++ l2)
  · rw [show arr2.length = (L.map some).length by rw [harr2]; simp [goRemoveShift]]
    simp [hL]
  · simp
  · intro j hj
    have hj' : j < l1.length + l2.length := by simp at hj; omega
    rw [harr2_getD j]
    by_cases hja : j < l1.length
    · rw [if_pos hja, hL, List.getElem?_append_left hja,
        List.getElem?_eq_getElem hja]
      simp [List.getD_eq_getElem?_getD, List.getElem?_append_left hja,
        List.getElem?_eq_getElem hja]
    · rw [if_neg hja, if_pos (by omega)]
      push_neg at hja
      have hj2 : j + 1 - l1.length = (j - l1.length) + 1 := by omega
      have hjl2 : j - l1.length < l2.length := by omega
      rw [hL, List.getElem?_append_right (by omega), hj2]
      simp only [List.getElem?_cons_succ]
      rw [List.getElem?_eq_getElem hjl2]
      simp [List.getD_eq_getElem?_getD, List.getElem?_append_right hja,
        List.getElem?_eq_getElem hjl2]

theorem removeAllGo_count_le_one (l : List Nat) (t : Nat) (h : l.count t ≤ 1) :
    removeAllGo l t = some (l.filter (fun x => x ≠ t)) := by
  by_cases ht : t ∈ l
  · obtain ⟨l1, l2, rfl⟩ := List.append_of_mem ht
    have hc1 : l1.count t = 0 := by
      rw [List.count_append, List.count_cons_self] at h; omega
    have hc2 : l2.count t = 0 := by
      rw [List.count_append, List.count_cons_self] at h; omega
    have h1 : t ∉ l1 := List.count_eq_zero.mp hc1
    have h2 : t ∉ l2 := List.count_eq_zero.mp hc2
    rw [removeAllGo_single l1 l2 t h1 h2]
    congr 1
    rw [List.filter_append, List.filter_cons]
    have e1 : List.filter (fun x => !decide (x = t)) l1 = l1 :=
      List.filter_eq_self.mpr fun a ha => by
        simp only [Bool.not_eq_true', decide_eq_false_iff_not]
        rintro rfl; exact h1 ha
    have e2 : List.filter (fun x => !decide (x = t)) l2 = l2 :=
      List.filter_eq_self.mpr fun a ha => by
        simp only [Bool.not_eq_true', decide_eq_false_iff_not]
        rintro rfl; exact h2 ha
    simp [e1, e2]
  · rw [removeAllGo_not_mem l t ht]
    congr 1
    exact (List.filter_eq_self.mpr fun a ha => by
      simp only [decide_eq_true_eq]
      rintro rfl; exact ht ha).symm

theorem disconnect_eq_filter (w : GridWorld) (p q : Nat) (hpq : p ≠ q)
    (hp : (w.conns p).count q ≤ 1) (hq : (w.conns q).count p ≤ 1) :
    disconnect w p q =
      some (setConns (setConns w p ((w.conns p).filter (fun x => x ≠ q))) q
        ((w.conns q).filter (fun x => x ≠ p))) := by
  rw [disconnect, if_neg hpq, removeAllGo_count_le_one _ _ hp]
  have e : (setConns w p ((w.conns p).filter (fun x => decide (x ≠ q)))).conns q
      = w.conns q := by
    simp [setConns, Ne.symm hpq]
  simp only [e, removeAllGo_count_le_one _ _ hq]

theorem setConns_id (w : GridWorld) (p : Nat) : setConns w p (w.conns p) = w := by
  have e : (fun i => if i = p then w.conns p else w.conns i) = w.conns := by
    funext i; split <;> simp_all
  simp [setConns, e]


/-! ## Theorems on the claims -/

/-- C1: for two disjoint components `{0,1}` and `{2,3}` of the same grid,
`(0).PathTo(2)` does NOT fail with a recoverable Unreachable condition:
the search exhausts its queue after three iterations and the code faults
with an index out-of-range panic at `toCheck[0]`, at every fuel bound
large enough for the search to get there.  (The claim's behaviour is the
spec's stated intent; the code has no queue-exhaustion check at all.) -/
theorem c1_pathTo_disjoint_components_panics (fuel : Nat) (hfuel : 3 ≤ fuel) :
    pathTo disjointWorld 0 2 fuel = .panicEmptyQueue := by
  obtain ⟨m, rfl⟩ : ∃ m, fuel = 3 + m := ⟨fuel - 3, by omega⟩
  have base : bfsLoop disjointWorld 0 3 none [2] []
      ((0, none) :: (2, none) :: disjointWorld.prevJournal)
      = .panicEmptyQueue := by decide
  have ext : bfsLoop disjointWorld 0 (3 + m) none [2] []
      ((0, none) :: (2, none) :: disjointWorld.prevJournal)
      = .panicEmptyQueue := by
    rw [bfsLoop_add_of_ne_outOfFuel disjointWorld 0 3 m _ _ _ _
      (by rw [base]; exact fun hc => BfsOut.noConfusion hc), base]
  rw [pathTo, if_neg (by decide), if_neg (by decide)]
  simp only [ext]

/-- C1 witness: the disjoint grid at fuel `20`. -/
theorem c1_pathTo_disjoint_components_panics_witness :
    (3:Nat) ≤ 20 ∧ pathTo disjointWorld 0 2 20 = .panicEmptyQueue :=
  ⟨by decide, c1_pathTo_disjoint_components_panics 20 (by decide)⟩

/-- C2: combining two 2-point grids whose only coincident pair is point
`0` of grid `100` and point `2` of grid `200` does NOT leave
`2 + 2 - 1 = 3` members with the survivor holding the union of
connections.  The deduplication pass iterates a stale member snapshot, so
the already-unparented duplicate `2` is later compared against the
survivor `0` again (it kept its world position when detached), steals
back the united connections, and unparents the survivor too: the combined
grid ends with the two members `[1, 3]`, the survivor `0` is orphaned
with no connections, and the union `[1, 3]` sits on the orphaned
duplicate `2`. -/
theorem c2_combine_drops_both_coincident_points :
    (combine mergeWorld 100 [200]).map (fun w =>
      (w.children 100, w.conns 0, w.conns 1, w.conns 2, w.conns 3,
        w.parent 0, w.parent 2))
      = some ([1, 3], [], [2], [1, 3], [2], none, none) := by rfl

/-- C3: on the line `0 – 1 – 2 – 3`, `(0).PathTo(3)` returns exactly the
four world positions of `0, 1, 2, 3` in source-to-destination order
(hop-count optimal: three hops), and the same holds after adding an
alternate route of `k ≥ 3` intermediate points between `0` and `3`
(length `k + 1 > 3` hops), for every such `k`, all positions, every stale
`prevLink` journal, and every sufficient fuel bound. -/
theorem c3_line_path_hop_optimal (pa pb pc pd : Vec) (pe : Nat → Vec)
    (J : List (Nat × Option Nat)) (k fuel : Nat)
    (hk : 3 ≤ k) (hfuel : 7 ≤ fuel) :
    pathTo (lineWorld pa pb pc pd J) 0 3 fuel = .path [pa, pb, pc, pd] ∧
    pathTo (altWorld k pa pb pc pd pe J) 0 3 fuel = .path [pa, pb, pc, pd] :=
  ⟨pathTo_lineWorld_eq pa pb pc pd J fuel hfuel,
    pathTo_altWorld_eq pa pb pc pd pe J k fuel hk hfuel⟩

/-- C3 witness: unit-spaced positions, the shortest admissible alternate
route (`k = 3`), and fuel `8`. -/
theorem c3_line_path_hop_optimal_witness :
    ((3:Nat) ≤ 3 ∧ (7:Nat) ≤ 8) ∧
    (pathTo (lineWorld ⟨0,0,0⟩ ⟨1,0,0⟩ ⟨2,0,0⟩ ⟨3,0,0⟩ []) 0 3 8
        = .path [⟨0,0,0⟩, ⟨1,0,0⟩, ⟨2,0,0⟩, ⟨3,0,0⟩] ∧
     pathTo (altWorld 3 ⟨0,0,0⟩ ⟨1,0,0⟩ ⟨2,0,0⟩ ⟨3,0,0⟩ (fun _ => ⟨9,9,9⟩) []) 0 3 8
        = .path [⟨0,0,0⟩, ⟨1,0,0⟩, ⟨2,0,0⟩, ⟨3,0,0⟩]) :=
  ⟨⟨by decide, by decide⟩,
    c3_line_path_hop_optimal ⟨0,0,0⟩ ⟨1,0,0⟩ ⟨2,0,0⟩ ⟨3,0,0⟩ (fun _ => ⟨9,9,9⟩)
      [] 3 8 (by decide) (by decide)⟩

/-- C4: on a grid with zero members, `NearestGridPoint` and
`FurthestGridPoint` index an empty slice (index out-of-range panic),
`RandomPoint` calls `rand.Intn(0)` (panic), and `Center` divides the zero
vector by zero (NaN components): none of them fails with a recoverable
empty-graph condition as the claim states. -/
theorem c4_empty_grid_queries_fault :
    nearestGridPoint emptyGridWorld 100 ⟨0, 0, 0⟩ = .error .indexOutOfRange ∧
    furthestGridPoint emptyGridWorld 100 ⟨0, 0, 0⟩ = .error .indexOutOfRange ∧
    (∀ r : Nat, randomPoint emptyGridWorld 100 r = .error .intnNonPositive) ∧
    center emptyGridWorld 100 = .nanDivZero := by
  refine ⟨by rfl, by rfl, fun r => ?_, by rfl⟩
  simp [randomPoint, points, emptyGridWorld]

/-- C5 (counterexample): in the search of `(0).PathTo(1)` on `starWorld`,
the first iteration dequeues the destination `1` and hands the state
`next = some 1, toCheck = [0]` to the second iteration, which dequeues
the source `0` and still expands its connections: the pendant neighbour
`2` receives a predecessor assignment (`prevLink 2 := 0`) and is
enqueued, refuting "dequeuing the source causes no further predecessor
assignments and no further enqueues". -/
theorem c5_source_dequeue_still_expands :
    bfsStep starWorld 0 none [1] [] [(0, none), (1, none)]
      = .stepped (some 1) [0] [1] [(0, some 1), (0, none), (1, none)] ∧
    bfsStep starWorld 0 (some 1) [0] [1] [(0, some 1), (0, none), (1, none)]
      = .stepped (some 0) [2] [0, 1]
          [(2, some 0), (0, some 1), (0, none), (1, none)] ∧
    pathTo starWorld 0 1 10 = .path [⟨0, 0, 0⟩, ⟨1, 0, 0⟩] := by decide

/-- C5 (amended): once the iteration that dequeues the source has run —
that iteration does still expand the source's neighbours — the loop
breaks at the very next check: no further node is dequeued and the
predecessor state is final. -/
theorem c5_no_dequeue_after_source (w : GridWorld) (pt fuel : Nat)
    (tc chk : List Nat) (prev : List (Nat × Option Nat)) :
    bfsLoop w pt (fuel + 1) (some pt) tc chk prev = .broke prev := by
  simp [bfsLoop, bfsStep]

/-- C6 (counterexample): the claim quantifies over all points `A`, `B`,
including `A = B`; but `A.Connect(A)` is a silent no-op, after which
`A.IsConnected(A)` is still `false`, not `true`. -/
theorem c6_self_connect_not_connected :
    isConnected (connect soloWorld 0 0) 0 0 = false := by decide

/-- C6 (amended): for DISTINCT points `A ≠ B` on a well-formed graph
(duplicate-free, self-free, symmetric connection lists), after
`A.Connect(B)` both `A.IsConnected(B)` and `B.IsConnected(A)` are true and
the symmetry invariant still holds; `A.Disconnect(B)` succeeds (no fault)
and leaves both directions disconnected with the invariant intact.  (The
original claim, quantified over all `A`, `B` including `A = B`, fails at
`A = B`, where `Connect` is a silent no-op.) -/
theorem c6_symmetric_connectivity (w : GridWorld) (p q : Nat) (hpq : p ≠ q)
    (hinv : ConnInv w) :
    isConnected (connect w p q) p q = true ∧
    isConnected (connect w p q) q p = true ∧
    ConnInv (connect w p q) ∧
    ∃ w', disconnect w p q = some w' ∧
      isConnected w' p q = false ∧ isConnected w' q p = false ∧ ConnInv w' := by
  obtain ⟨hnd, hself, hsym⟩ := hinv
  refine ⟨isConnected_connect_left w p q hpq, isConnected_connect_right w p q hpq,
    connInv_connect w p q hpq ⟨hnd, hself, hsym⟩, ?_⟩
  have hcp : (w.conns p).count q ≤ 1 := by
    have h := hnd p; rw [List.nodup_iff_count_le_one] at h; exact h q
  have hcq : (w.conns q).count p ≤ 1 := by
    have h := hnd q; rw [List.nodup_iff_count_le_one] at h; exact h p
  refine ⟨_, disconnect_eq_filter w p q hpq hcp hcq, ?_, ?_, ?_⟩
  · simp [isConnected, setConns, hpq, List.elem_iff, List.mem_filter]
  · simp [isConnected, setConns, hpq, Ne.symm hpq, List.elem_iff, List.mem_filter]
  · have hmem : ∀ i j, j ∈ (setConns (setConns w p
        ((w.conns p).filter (fun x => x ≠ q))) q
        ((w.conns q).filter (fun x => x ≠ p))).conns i ↔
        j ∈ w.conns i ∧ ¬(i = p ∧ j = q) ∧ ¬(i = q ∧ j = p) := by
      intro i j
      by_cases hiq : i = q <;> by_cases hip : i = p <;>
        simp_all [setConns, List.mem_filter]
    refine ⟨fun i => ?_, fun i => ?_, fun i j => ?_⟩
    · by_cases hiq : i = q <;> by_cases hip : i = p <;>
        simp_all [setConns] <;> exact List.Nodup.filter _ (hnd _)
    · rw [hmem i i]
      rintro ⟨hmi, -, -⟩
      exact hself i hmi
    · rw [hmem i j, hmem j i, hsym i j]
      tauto

theorem twoPointsWorld_connInv : ConnInv twoPointsWorld :=
  ⟨fun _ => List.nodup_nil, fun _ => List.not_mem_nil _,
    fun _ _ => by simp [twoPointsWorld]⟩

/-- C6 witness: the two unconnected points `0`, `1` of `twoPointsWorld`. -/
theorem c6_symmetric_connectivity_witness :
    ((0 : Nat) ≠ 1 ∧ ConnInv twoPointsWorld) ∧
    (isConnected (connect twoPointsWorld 0 1) 0 1 = true ∧
     isConnected (connect twoPointsWorld 0 1) 1 0 = true ∧
     ConnInv (connect twoPointsWorld 0 1) ∧
     ∃ w', disconnect twoPointsWorld 0 1 = some w' ∧
       isConnected w' 0 1 = false ∧ isConnected w' 1 0 = false ∧ ConnInv w') :=
  ⟨⟨by decide, twoPointsWorld_connInv⟩,
    c6_symmetric_connectivity twoPointsWorld 0 1 (by decide) twoPointsWorld_connInv⟩

/-- C7: `Connect` twice equals `Connect` once; `Disconnect` of a
non-edge returns the state unchanged (and does not fault); self-`Connect`
and self-`Disconnect` are silent no-ops. -/
theorem c7_idempotent_ops (w : GridWorld) (p q : Nat) :
    connect (connect w p q) p q = connect w p q ∧
    (isConnected w p q = false → isConnected w q p = false →
      disconnect w p q = some w) ∧
    connect w p p = w ∧
    disconnect w p p = some w := by
  refine ⟨connect_idem w p q, fun h1 h2 => ?_, connect_self w p, by simp [disconnect]⟩
  by_cases hpq : p = q
  · subst hpq; simp [disconnect]
  · have hnp : q ∉ w.conns p := by
      intro hm
      rw [(isConnected_iff w p q).mpr hm] at h1
      exact Bool.noConfusion h1
    have hnq : p ∉ w.conns q := by
      intro hm
      rw [(isConnected_iff w q p).mpr hm] at h2
      exact Bool.noConfusion h2
    rw [disconnect, if_neg hpq, removeAllGo_not_mem _ _ hnp]
    simp only [setConns_id, removeAllGo_not_mem _ _ hnq]

/-- C7 witness: points `0`, `1` of `twoPointsWorld` (no edge between
them). -/
theorem c7_idempotent_ops_witness :
    (isConnected twoPointsWorld 0 1 = false ∧
     isConnected twoPointsWorld 1 0 = false) ∧
    (connect (connect twoPointsWorld 0 1) 0 1 = connect twoPointsWorld 0 1 ∧
     disconnect twoPointsWorld 0 1 = some twoPointsWorld ∧
     connect twoPointsWorld 0 0 = twoPointsWorld ∧
     disconnect twoPointsWorld 0 0 = some twoPointsWorld) := by
  refine ⟨⟨by decide, by decide⟩, ?_⟩
  obtain ⟨h1, h2, h3, h4⟩ := c7_idempotent_ops twoPointsWorld 0 1
  exact ⟨h1, h2 (by decide) (by decide), h3, h4⟩


/-- C8: `A.PathTo(A)` is a single-position path holding `A`'s world
position, and its `Distance` is `0` (for any square-root routine of the
external math library). -/
theorem c8_self_path (w : GridWorld) (p fuel : Nat) (sqrtFn : ℚ → ℚ) :
    pathTo w p p fuel = .path [w.pos p] ∧
    gridPathDistance sqrtFn [w.pos p] = 0 := by
  constructor
  · simp [pathTo, isOnSameGrid]
  · simp [gridPathDistance]

/-- C9: when two points do not share the same direct parent,
`PathTo` returns the graph-mismatch failure (`nil`) immediately — for
every fuel bound, including `0`, so no search is performed. -/
theorem c9_graph_mismatch (w : GridWorld) (p q fuel : Nat)
    (h : w.parent p ≠ w.parent q) : pathTo w p q fuel = .mismatch := by
  simp [pathTo, isOnSameGrid, h]

/-- C9 witness: points `0` (on grid `100`) and `2` (on grid `200`) of
`mergeWorld`, with no fuel at all. -/
theorem c9_graph_mismatch_witness :
    mergeWorld.parent 0 ≠ mergeWorld.parent 2 ∧
    pathTo mergeWorld 0 2 0 = .mismatch :=
  ⟨by decide, c9_graph_mismatch mergeWorld 0 2 0 (by decide)⟩

/-- C10: when the member nearest to the query position has an empty
connection list, `NearestPositionOnGrid` returns the query position
itself, unchanged. -/
theorem c10_nearest_position_keeps_query (w : GridWorld) (g : Nat)
    (q : Vec) (np : Nat) (h1 : nearestGridPoint w g q = .ok np)
    (h2 : w.conns np = []) :
    nearestPositionOnGrid w g q = .ok q := by
  simp [nearestPositionOnGrid, h1, h2]

/-- C10 witness: the single unconnected point of `soloWorld` sits at the
origin, yet the nearest position on the grid to `(3,4,0)` is `(3,4,0)`
itself. -/
theorem c10_nearest_position_keeps_query_witness :
    nearestGridPoint soloWorld 100 ⟨3, 4, 0⟩ = .ok 0 ∧
    soloWorld.conns 0 = [] ∧
    nearestPositionOnGrid soloWorld 100 ⟨3, 4, 0⟩ = .ok ⟨3, 4, 0⟩ :=
  ⟨by rfl, by rfl,
    c10_nearest_position_keeps_query soloWorld 100 ⟨3, 4, 0⟩ 0 (by rfl) (by rfl)⟩

end Tetra3d
